import Mathlib

/-!
Verification development for the `cluster_by_color` repository
(`src/lib/colour_system.py`), a single-module colour conversion library
built on numpy.  The numerical code is embedded shallowly over `ℚ`:
numpy 3-vectors become `Vec3`, 3×3 matrices become `Mat3` (rows of
`Vec3`), spectra become `List ℚ`, the 81×3 colour-matching-function
tables become `List Vec3`, and the Python exceptions that numpy raises
(`AttributeError` when `self.cmf` was never assigned, `ValueError` on a
failed broadcast) become an `Except PyErr` result.  Non-finite float
results of a division by zero (inf / nan) are modelled as `none` in an
`Option ℚ`.
-/

/-- A numpy array of shape (3,), over exact rationals. -/
structure Vec3 where
  x : ℚ
  y : ℚ
  z : ℚ
deriving DecidableEq

/-- Componentwise sum of two 3-vectors. -/
def Vec3.add (a b : Vec3) : Vec3 := ⟨a.x + b.x, a.y + b.y, a.z + b.z⟩

/-- Scalar times vector, `np.multiply(s, v)` / broadcasting of `v + s` uses
`addConst` below. -/
def Vec3.smul (s : ℚ) (v : Vec3) : Vec3 := ⟨s * v.x, s * v.y, s * v.z⟩

/-- `v + w` for a scalar `w`, numpy broadcasting of `rgb += w`. -/
def Vec3.addConst (v : Vec3) (s : ℚ) : Vec3 := ⟨v.x + s, v.y + s, v.z + s⟩

/-- Componentwise division of a vector by a scalar, `rgb /= m`. -/
def Vec3.divs (v : Vec3) (s : ℚ) : Vec3 := ⟨v.x / s, v.y / s, v.z / s⟩

/-- Componentwise (Hadamard) product, `np.multiply` of two `(3,)` arrays. -/
def Vec3.hadamard (a b : Vec3) : Vec3 := ⟨a.x * b.x, a.y * b.y, a.z * b.z⟩

/-- Sum of the three components, `np.sum` over a `(3,)` array. -/
def Vec3.csum (v : Vec3) : ℚ := v.x + v.y + v.z

/-- Dot product of two 3-vectors. -/
def Vec3.dot (a b : Vec3) : ℚ := a.x * b.x + a.y * b.y + a.z * b.z

/-- `np.max` of a `(3,)` array. -/
def Vec3.max3 (v : Vec3) : ℚ := max v.x (max v.y v.z)

/-- `np.min` of a `(3,)` array. -/
def Vec3.min3 (v : Vec3) : ℚ := min v.x (min v.y v.z)

/-- A numpy array of shape (3,3), stored as its three rows. -/
structure Mat3 where
  r0 : Vec3
  r1 : Vec3
  r2 : Vec3
deriving DecidableEq

/-- `np.vstack((r, g, b)).T`: the matrix whose columns are `r`, `g`, `b`. -/
def Mat3.fromCols (r g b : Vec3) : Mat3 :=
  ⟨⟨r.x, g.x, b.x⟩, ⟨r.y, g.y, b.y⟩, ⟨r.z, g.z, b.z⟩⟩

/-- `m.dot(v)`, matrix–vector product. -/
def Mat3.mulVec (m : Mat3) (v : Vec3) : Vec3 :=
  ⟨m.r0.dot v, m.r1.dot v, m.r2.dot v⟩

/-- Determinant of a 3×3 matrix. -/
def Mat3.det3 (m : Mat3) : ℚ :=
  m.r0.x * (m.r1.y * m.r2.z - m.r1.z * m.r2.y)
    - m.r0.y * (m.r1.x * m.r2.z - m.r1.z * m.r2.x)
    + m.r0.z * (m.r1.x * m.r2.y - m.r1.y * m.r2.x)

/-- `np.linalg.inv` for a 3×3 matrix: adjugate divided by the determinant
(the mathematical value LAPACK computes; numpy raises `LinAlgError` on a
singular input, so every use below carries an invertibility hypothesis). -/
def Mat3.inv3 (m : Mat3) : Mat3 :=
  let d := m.det3
  ⟨⟨(m.r1.y * m.r2.z - m.r1.z * m.r2.y) / d,
    (m.r0.z * m.r2.y - m.r0.y * m.r2.z) / d,
    (m.r0.y * m.r1.z - m.r0.z * m.r1.y) / d⟩,
   ⟨(m.r1.z * m.r2.x - m.r1.x * m.r2.z) / d,
    (m.r0.x * m.r2.z - m.r0.z * m.r2.x) / d,
    (m.r0.z * m.r1.x - m.r0.x * m.r1.z) / d⟩,
   ⟨(m.r1.x * m.r2.y - m.r1.y * m.r2.x) / d,
    (m.r0.y * m.r2.x - m.r0.x * m.r2.y) / d,
    (m.r0.x * m.r1.y - m.r0.y * m.r1.x) / d⟩⟩

/-- `self.MI / self.wscale[:, np.newaxis]`: each row `i` of `m` divided by
component `i` of `w`. -/
def Mat3.rowScale (m : Mat3) (w : Vec3) : Mat3 :=
  ⟨m.r0.divs w.x, m.r1.divs w.y, m.r2.divs w.z⟩

/-- Truncation toward zero, numpy's `.astype(int)` on a float value:
`Int.tdiv` is T-division, which rounds the quotient toward zero exactly
as the C cast does. -/
def truncQ (q : ℚ) : ℤ := Int.tdiv q.num (q.den : ℤ)

/-- Lowercase hexadecimal digit for `n < 16`. -/
def hexDigitChar (n : ℕ) : Char :=
  if n < 10 then Char.ofNat (48 + n) else Char.ofNat (87 + n)

/-- Hexadecimal digits with an explicit fuel bound (structural recursion
so that concrete values reduce); the fuel never runs out when it starts
at least at 1, since the argument shrinks by a factor of 16 each step. -/
def natHexAux : ℕ → ℕ → List Char
  | 0, _ => []
  | fuel + 1, n =>
    if n < 16 then [hexDigitChar n]
    else natHexAux fuel (n / 16) ++ [hexDigitChar (n % 16)]

/-- Hexadecimal digits of a natural number, most significant first. -/
def natHexDigits (n : ℕ) : List Char := natHexAux (n + 1) n

/-- Left-pad a digit list with `'0'` to width `w`. -/
def padZero (s : List Char) (w : ℕ) : List Char :=
  List.replicate (w - s.length) '0' ++ s

/-- Python's `'{:02x}'.format(i)` for an integer `i`: lowercase hex,
zero-padded to total width 2 (the sign, when present, counts toward the
width). -/
def intToHexPad2 (i : ℤ) : String :=
  if i < 0 then "-" ++ String.mk (padZero (natHexDigits i.natAbs) 1)
  else String.mk (padZero (natHexDigits i.natAbs) 2)

/-- The process-wide reference tables: the two 81×3 colour-matching
function tables and the 81-sample D65 illuminant power column, loaded
once at process start from `calibrate/`. -/
structure Globals where
  cmf1931 : List Vec3
  cmf1964 : List Vec3
  D65 : List ℚ

/-- `ColourSystem.weight = np.sum(np.multiply(cmf1964[:, 1], D65))`: the
sum of the elementwise product of the 1964 CMF's Y-channel (column 1)
with the D65 spectrum. -/
def Globals.weight (g : Globals) : ℚ :=
  (List.zipWith (fun a b => a * b) (g.cmf1964.map Vec3.y) g.D65).sum

/-- `__xyz_from_xy__` / `xy_to_xyz`: the vector `(x, y, 1 - x - y)`. -/
def xyz_from_xy (x y : ℚ) : Vec3 := ⟨x, y, 1 - x - y⟩

/-- The constructor arguments of a `ColourSystem`: three primary
chromaticity pairs, the white-point XYZ vector, and the CMF variant
selector (Python default `cmf=1964`).  All derived attributes (`red`,
`M`, `MI`, `wscale`, `T`, `cmf`) are computed from these, matching
`__init__` which computes them once and never mutates them. -/
structure ColourSystem where
  redxy : ℚ × ℚ
  greenxy : ℚ × ℚ
  bluexy : ℚ × ℚ
  white : Vec3
  cmfVariant : ℤ

/-- `self.red = self.__xyz_from_xy__(*red)`. -/
def ColourSystem.red (cs : ColourSystem) : Vec3 := xyz_from_xy cs.redxy.1 cs.redxy.2

/-- `self.green = self.__xyz_from_xy__(*green)`. -/
def ColourSystem.green (cs : ColourSystem) : Vec3 := xyz_from_xy cs.greenxy.1 cs.greenxy.2

/-- `self.blue = self.__xyz_from_xy__(*blue)`. -/
def ColourSystem.blue (cs : ColourSystem) : Vec3 := xyz_from_xy cs.bluexy.1 cs.bluexy.2

/-- The `self.cmf` attribute after `__init__` ran.  The two `if`
statements assign the 1964 table and then the 1931 table; with any
other variant neither fires and the attribute is never set (`none`),
so a later `self.cmf` access raises `AttributeError`. -/
def ColourSystem.cmf (cs : ColourSystem) (g : Globals) : Option (List Vec3) :=
  let c : Option (List Vec3) := none
  let c := if cs.cmfVariant = 1964 then some g.cmf1964 else c
  let c := if cs.cmfVariant = 1931 then some g.cmf1931 else c
  c

/-- `self.M = np.vstack((self.red, self.green, self.blue)).T`. -/
def ColourSystem.M (cs : ColourSystem) : Mat3 :=
  Mat3.fromCols cs.red cs.green cs.blue

/-- `self.MI = np.linalg.inv(self.M)`. -/
def ColourSystem.MI (cs : ColourSystem) : Mat3 := cs.M.inv3

/-- `self.wscale = self.MI.dot(self.white)`. -/
def ColourSystem.wscale (cs : ColourSystem) : Vec3 := cs.MI.mulVec cs.white

/-- `self.T = self.MI / self.wscale[:, np.newaxis]`. -/
def ColourSystem.T (cs : ColourSystem) : Mat3 := cs.MI.rowScale cs.wscale

/-- `rgb_to_hex`: `hex_rgb = (255 * rgb).astype(int)` then
`'#{:02x}{:02x}{:02x}'.format(*hex_rgb)`. -/
def ColourSystem.rgb_to_hex (rgb : Vec3) : String :=
  "#" ++ intToHexPad2 (truncQ (255 * rgb.x))
      ++ intToHexPad2 (truncQ (255 * rgb.y))
      ++ intToHexPad2 (truncQ (255 * rgb.z))

/-- The desaturation step of `xyz_to_rgb`: if any component of `rgb` is
negative, add `w = -np.min(rgb)` to every component. -/
def gamutDesat (rgb : Vec3) : Vec3 :=
  if rgb.x < 0 ∨ rgb.y < 0 ∨ rgb.z < 0 then rgb.addConst (-rgb.min3) else rgb

/-- The normalization step of `xyz_to_rgb`: unless every component is
exactly zero, divide by the maximum component. -/
def maxNormalize (rgb : Vec3) : Vec3 :=
  if rgb = ⟨0, 0, 0⟩ then rgb else rgb.divs rgb.max3

/-- `xyz_to_rgb` without the `out_fmt` branch: `rgb = self.T.dot(xyz)`,
desaturate if out of gamut, normalize on the maximum unless all zero,
and return the fractional vector. -/
def ColourSystem.xyz_to_rgb (cs : ColourSystem) (xyz : Vec3) : Vec3 :=
  maxNormalize (gamutDesat (cs.T.mulVec xyz))

/-- `xyz_to_rgb` with `out_fmt='html'`: the same vector passed through
`rgb_to_hex`. -/
def ColourSystem.xyz_to_rgb_html (cs : ColourSystem) (xyz : Vec3) : String :=
  ColourSystem.rgb_to_hex (cs.xyz_to_rgb xyz)

/-- `xy_to_rgb(x, y)` (fractional output): `xyz_to_rgb(xy_to_xyz(x, y))`. -/
def ColourSystem.xy_to_rgb (cs : ColourSystem) (x y : ℚ) : Vec3 :=
  cs.xyz_to_rgb (xyz_from_xy x y)

/-- `xy_to_rgb(x, y, 'html')`. -/
def ColourSystem.xy_to_rgb_html (cs : ColourSystem) (x y : ℚ) : String :=
  cs.xyz_to_rgb_html (xyz_from_xy x y)

/-- `xyz_to_spec`: `np.multiply(xyz, ColourSystem.weight)` then
`np.sum(np.multiply(result, ColourSystem.cmf1964), axis=1)`.  It reads
the class attributes `weight` and `cmf1964` directly and never touches
`self.cmf`, so the instance argument is unused. -/
def ColourSystem.xyz_to_spec (_cs : ColourSystem) (g : Globals) (xyz : Vec3) : List ℚ :=
  let result := Vec3.smul g.weight xyz
  g.cmf1964.map (fun row => (result.hadamard row).csum)

/-- The Python exceptions the module can surface: `AttributeError` when
`self.cmf` was never assigned, `ValueError` when numpy cannot broadcast
the spectrum against the 81×3 CMF table. -/
inductive PyErr where
  | attributeError
  | valueError
deriving DecidableEq

/-- `spec[:, np.newaxis] * cmf`: numpy broadcasting of an `(n, 1)` array
against an `(81, 3)` array.  The shapes are compatible when `n` equals
the table length, or either of them is 1; otherwise numpy raises
`ValueError`. -/
def bcastRows (spec : List ℚ) (cmf : List Vec3) : Option (List Vec3) :=
  if spec.length = cmf.length then
    some (List.zipWith (fun s row => Vec3.smul s row) spec cmf)
  else if spec.length = 1 then
    some (cmf.map (fun row => Vec3.smul (spec.headD 0) row))
  else if cmf.length = 1 then
    some (spec.map (fun s => Vec3.smul s (cmf.headD ⟨0, 0, 0⟩)))
  else none

/-- `np.sum(rows, axis=0)`: the componentwise sum of a list of rows. -/
def sumRows (rows : List Vec3) : Vec3 := rows.foldr Vec3.add ⟨0, 0, 0⟩

/-- The raw (pre-normalization) XYZ vector of `spec_to_xyz`, given an
already-broadcast row list. -/
def rawXYZ (spec : List ℚ) (cmf : List Vec3) : Option Vec3 :=
  (bcastRows spec cmf).map sumRows

/-- `spec_to_xyz`: reads `self.cmf` (raising `AttributeError` when it is
unset), broadcasts the spectrum against it (raising `ValueError` on
incompatible shapes), sums over the 81 samples, and divides by the sum
of the three components unless that sum is exactly zero. -/
def ColourSystem.spec_to_xyz (cs : ColourSystem) (g : Globals) (spec : List ℚ) :
    Except PyErr Vec3 :=
  match cs.cmf g with
  | none => .error .attributeError
  | some table =>
    match rawXYZ spec table with
    | none => .error .valueError
    | some XYZ =>
      let den := XYZ.csum
      if den = 0 then .ok XYZ else .ok (XYZ.divs den)

/-- Float division with a zero denominator yields a non-finite value
(inf or nan), modelled as `none`. -/
def qdivF (a b : ℚ) : Option ℚ := if b = 0 then none else some (a / b)

/-- `sepc_to_xy`: unpacks `spec_to_xyz(spec)` into `X, Y, Z` (exceptions
propagate) and returns `(X / (X+Y+Z), Y / (X+Y+Z))`; each quotient is a
non-finite float (`none`) when the denominator is zero. -/
def ColourSystem.sepc_to_xy (cs : ColourSystem) (g : Globals) (spec : List ℚ) :
    Except PyErr (Option ℚ × Option ℚ) :=
  (cs.spec_to_xyz g spec).map fun xyz =>
    (qdivF xyz.x xyz.csum, qdivF xyz.y xyz.csum)

/-- `spec_to_rgb`: `spec_to_xyz` then `xyz_to_rgb` (fractional). -/
def ColourSystem.spec_to_rgb (cs : ColourSystem) (g : Globals) (spec : List ℚ) :
    Except PyErr Vec3 :=
  (cs.spec_to_xyz g spec).map cs.xyz_to_rgb

/-- `illuminant_D65 = ColourSystem.xy_to_xyz(None, 0.3127, 0.3291)`. -/
def illuminant_D65 : Vec3 := xyz_from_xy 0.3127 0.3291

/-- `cs_hdtv`, constructed with the Python default `cmf=1964`. -/
def cs_hdtv : ColourSystem :=
  ⟨(0.67, 0.33), (0.21, 0.71), (0.15, 0.06), illuminant_D65, 1964⟩

/-- `cs_smpte`, constructed with the Python default `cmf=1964`. -/
def cs_smpte : ColourSystem :=
  ⟨(0.63, 0.34), (0.31, 0.595), (0.155, 0.070), illuminant_D65, 1964⟩

/-- `cs_srgb`, constructed with the Python default `cmf=1964`. -/
def cs_srgb : ColourSystem :=
  ⟨(0.64, 0.33), (0.30, 0.60), (0.15, 0.06), illuminant_D65, 1964⟩

/-- A concrete stand-in for the loaded reference tables: both CMF tables
and the D65 column have the 81 rows the `calibrate/` data files carry
(their numeric entries are irrelevant to every claim below). -/
def testGlobals : Globals :=
  ⟨List.replicate 81 ⟨1, 1, 1⟩, List.replicate 81 ⟨1, 2, 1⟩, List.replicate 81 1⟩

/-- A colour system whose primaries are the three coordinate axes and
whose white point is `(1, 1, 1)`; its basis matrix is the identity.
Used to instantiate universally quantified theorems on concrete input. -/
def unitSystem : ColourSystem :=
  ⟨(1, 0), (0, 1), (0, 0), ⟨1, 1, 1⟩, 1964⟩

theorem Vec3.eq_mk (v : Vec3) : v = ⟨v.x, v.y, v.z⟩ := rfl

theorem Vec3.hadamard_csum (a b : Vec3) : (a.hadamard b).csum = a.dot b := by
  simp [Vec3.hadamard, Vec3.csum, Vec3.dot]

theorem Vec3.dot_zero_right (v : Vec3) : v.dot ⟨0, 0, 0⟩ = 0 := by
  simp [Vec3.dot]

theorem Mat3.mulVec_zero (m : Mat3) : m.mulVec ⟨0, 0, 0⟩ = ⟨0, 0, 0⟩ := by
  simp [Mat3.mulVec, Vec3.dot_zero_right]

theorem Vec3.divs_dot (v : Vec3) (s : ℚ) (w : Vec3) :
    (v.divs s).dot w = v.dot w / s := by
  simp [Vec3.divs, Vec3.dot, div_mul_eq_mul_div, div_add_div_same]

theorem Vec3.csum_divs (v : Vec3) (s : ℚ) : (v.divs s).csum = v.csum / s := by
  simp [Vec3.divs, Vec3.csum, div_add_div_same]

theorem Vec3.max3_divs (v : Vec3) (s : ℚ) (hs : 0 ≤ s) :
    (v.divs s).max3 = v.max3 / s := by
  simp [Vec3.divs, Vec3.max3, max_div_div_right hs]

theorem truncQ_eq_intFloor (q : ℚ) (h : 0 ≤ q) : truncQ q = ⌊q⌋ := by
  rw [truncQ, Rat.floor_def]
  exact Int.tdiv_eq_ediv (Rat.num_nonneg.mpr h) (Int.natCast_nonneg _)

theorem gamutDesat_nonneg (v : Vec3) :
    0 ≤ (gamutDesat v).x ∧ 0 ≤ (gamutDesat v).y ∧ 0 ≤ (gamutDesat v).z := by
  have h1 : v.min3 ≤ v.x := min_le_left _ _
  have h2 : v.min3 ≤ v.y := le_trans (min_le_right _ _) (min_le_left _ _)
  have h3 : v.min3 ≤ v.z := le_trans (min_le_right _ _) (min_le_right _ _)
  rw [gamutDesat]
  split
  · refine ⟨?_, ?_, ?_⟩ <;> simp only [Vec3.addConst] <;> linarith
  · rename_i h
    push_neg at h
    exact ⟨h.1, h.2.1, h.2.2⟩

theorem max3_pos (v : Vec3) (hx : 0 ≤ v.x) (hy : 0 ≤ v.y) (hz : 0 ≤ v.z)
    (hne : v ≠ ⟨0, 0, 0⟩) : 0 < v.max3 := by
  rw [Vec3.max3]
  rcases hx.lt_or_eq with h | h
  · exact lt_of_lt_of_le h (le_max_left _ _)
  · rcases hy.lt_or_eq with h2 | h2
    · exact lt_of_lt_of_le h2 (le_trans (le_max_left _ _) (le_max_right _ _))
    · rcases hz.lt_or_eq with h3 | h3
      · exact lt_of_lt_of_le h3 (le_trans (le_max_right _ _) (le_max_right _ _))
      · exact absurd (by rw [Vec3.eq_mk v, ← h, ← h2, ← h3]) hne

theorem max3_nonneg (v : Vec3) (hx : 0 ≤ v.x) : 0 ≤ v.max3 :=
  le_trans hx (by rw [Vec3.max3]; exact le_max_left _ _)

theorem gamutDesat_one : gamutDesat ⟨1, 1, 1⟩ = ⟨1, 1, 1⟩ := by
  rw [gamutDesat, if_neg]
  norm_num

theorem maxNormalize_one : maxNormalize ⟨1, 1, 1⟩ = ⟨1, 1, 1⟩ := by
  rw [maxNormalize, if_neg (by simp)]
  norm_num [Vec3.divs, Vec3.max3]

theorem sumRows_cons (v : Vec3) (l : List Vec3) :
    sumRows (v :: l) = v.add (sumRows l) := rfl

theorem sumRows_zipWith_zero (l : List Vec3) :
    sumRows (List.zipWith (fun s row => Vec3.smul s row)
      (List.replicate l.length 0) l) = ⟨0, 0, 0⟩ := by
  induction l with
  | nil => rfl
  | cons hd tl ih =>
    rw [List.length_cons, List.replicate_succ, List.zipWith_cons_cons, sumRows_cons, ih]
    simp [Vec3.smul, Vec3.add]

theorem sumRows_replicate (n : ℕ) (v : Vec3) :
    sumRows (List.replicate n v) = ⟨n * v.x, n * v.y, n * v.z⟩ := by
  induction n with
  | zero => simp [sumRows]
  | succ n ih =>
    rw [List.replicate_succ, sumRows_cons, ih]
    simp only [Vec3.add, Vec3.mk.injEq]
    refine ⟨?_, ?_, ?_⟩ <;> push_cast <;> ring

theorem cmf_of_1964 (cs : ColourSystem) (g : Globals) (hv : cs.cmfVariant = 1964) :
    cs.cmf g = some g.cmf1964 := by
  rw [ColourSystem.cmf]
  simp [hv]

theorem spec_to_xyz_zero_replicate (cs : ColourSystem) (g : Globals)
    (hv : cs.cmfVariant = 1964) (hlen : g.cmf1964.length = 81) :
    cs.spec_to_xyz g (List.replicate 81 0) = .ok ⟨0, 0, 0⟩ := by
  have hbc : rawXYZ (List.replicate 81 0) g.cmf1964 = some ⟨0, 0, 0⟩ := by
    rw [rawXYZ, bcastRows, if_pos (by simp [hlen]), Option.map_some', ← hlen,
      sumRows_zipWith_zero]
  rw [ColourSystem.spec_to_xyz]
  simp only [cmf_of_1964 cs g hv, hbc]
  norm_num [Vec3.csum]

theorem gamutDesat_zero : gamutDesat ⟨0, 0, 0⟩ = ⟨0, 0, 0⟩ := by
  rw [gamutDesat, if_neg]
  norm_num

theorem rgb_to_hex_zero : ColourSystem.rgb_to_hex ⟨0, 0, 0⟩ = "#000000" := by
  rw [ColourSystem.rgb_to_hex]
  rw [show truncQ (255 * (⟨0, 0, 0⟩ : Vec3).x) = 0 from by
    rw [truncQ_eq_intFloor _ (by norm_num)]; norm_num]
  decide

theorem rgb_to_hex_one : ColourSystem.rgb_to_hex ⟨1, 1, 1⟩ = "#ffffff" := by
  rw [ColourSystem.rgb_to_hex]
  rw [show truncQ (255 * (⟨1, 1, 1⟩ : Vec3).x) = 255 from by
    rw [truncQ_eq_intFloor _ (by norm_num)]; norm_num]
  decide

/-- Claim C1: for every ColourSystem whose basis matrix M is invertible
and whose white-scaling vector has all positive components, xyz_to_rgb
maps the system's own white point to the fractional vector (1, 1, 1)
(exactly, over ℚ); in particular the sRGB-equivalent system's white
point is xy_to_xyz(0.3127, 0.3291) and xy_to_rgb(0.3127, 0.3291, 'html')
returns "#ffffff". -/
theorem claim_C1 :
    (∀ cs : ColourSystem, cs.M.det3 ≠ 0 →
      0 < cs.wscale.x → 0 < cs.wscale.y → 0 < cs.wscale.z →
      cs.xyz_to_rgb cs.white = ⟨1, 1, 1⟩) ∧
    cs_srgb.white = xyz_from_xy 0.3127 0.3291 ∧
    cs_srgb.xy_to_rgb_html 0.3127 0.3291 = "#ffffff" := by
  have hgen : ∀ cs : ColourSystem, cs.M.det3 ≠ 0 →
      0 < cs.wscale.x → 0 < cs.wscale.y → 0 < cs.wscale.z →
      cs.xyz_to_rgb cs.white = ⟨1, 1, 1⟩ := by
    intro cs _hdet h1 h2 h3
    have e1 : cs.MI.r0.dot cs.white = cs.wscale.x := rfl
    have e2 : cs.MI.r1.dot cs.white = cs.wscale.y := rfl
    have e3 : cs.MI.r2.dot cs.white = cs.wscale.z := rfl
    have hT : cs.T.mulVec cs.white = ⟨1, 1, 1⟩ := by
      rw [ColourSystem.T, Mat3.rowScale, Mat3.mulVec]
      dsimp only
      rw [Vec3.divs_dot, Vec3.divs_dot, Vec3.divs_dot, e1, e2, e3,
        div_self (ne_of_gt h1), div_self (ne_of_gt h2), div_self (ne_of_gt h3)]
    rw [ColourSystem.xyz_to_rgb, hT, gamutDesat_one, maxNormalize_one]
  refine ⟨hgen, rfl, ?_⟩
  have hdet : cs_srgb.M.det3 ≠ 0 := by
    simp only [cs_srgb, ColourSystem.M, Mat3.fromCols, ColourSystem.red,
      ColourSystem.green, ColourSystem.blue, xyz_from_xy, Mat3.det3]
    norm_num
  have hws : 0 < cs_srgb.wscale.x ∧ 0 < cs_srgb.wscale.y ∧ 0 < cs_srgb.wscale.z := by
    simp only [cs_srgb, ColourSystem.wscale, ColourSystem.MI, ColourSystem.M,
      Mat3.fromCols, ColourSystem.red, ColourSystem.green, ColourSystem.blue,
      xyz_from_xy, Mat3.inv3, Mat3.det3, Mat3.mulVec, Vec3.dot, illuminant_D65]
    norm_num
  show ColourSystem.rgb_to_hex (cs_srgb.xyz_to_rgb cs_srgb.white) = "#ffffff"
  rw [hgen cs_srgb hdet hws.1 hws.2.1 hws.2.2, rgb_to_hex_one]

/-- Witness for C1: the sRGB system satisfies the hypotheses and its
white point maps to (1, 1, 1). -/
theorem claim_C1_witness :
    cs_srgb.M.det3 ≠ 0 ∧
    (0 < cs_srgb.wscale.x ∧ 0 < cs_srgb.wscale.y ∧ 0 < cs_srgb.wscale.z) ∧
    cs_srgb.xyz_to_rgb cs_srgb.white = ⟨1, 1, 1⟩ := by
  have hdet : cs_srgb.M.det3 ≠ 0 := by
    simp only [cs_srgb, ColourSystem.M, Mat3.fromCols, ColourSystem.red,
      ColourSystem.green, ColourSystem.blue, xyz_from_xy, Mat3.det3]
    norm_num
  have hws : 0 < cs_srgb.wscale.x ∧ 0 < cs_srgb.wscale.y ∧ 0 < cs_srgb.wscale.z := by
    simp only [cs_srgb, ColourSystem.wscale, ColourSystem.MI, ColourSystem.M,
      Mat3.fromCols, ColourSystem.red, ColourSystem.green, ColourSystem.blue,
      xyz_from_xy, Mat3.inv3, Mat3.det3, Mat3.mulVec, Vec3.dot, illuminant_D65]
    norm_num
  exact ⟨hdet, hws, claim_C1.1 cs_srgb hdet hws.1 hws.2.1 hws.2.2⟩

/-- Claim C2: whenever the rgb vector after the desaturation step is not
all zero, the fractional vector returned by xyz_to_rgb has maximum
component exactly 1, the others scaled proportionally (divided by the
same maximum). -/
theorem claim_C2 (cs : ColourSystem) (xyz : Vec3)
    (h : gamutDesat (cs.T.mulVec xyz) ≠ ⟨0, 0, 0⟩) :
    (cs.xyz_to_rgb xyz).max3 = 1 ∧
    cs.xyz_to_rgb xyz =
      (gamutDesat (cs.T.mulVec xyz)).divs (gamutDesat (cs.T.mulVec xyz)).max3 := by
  obtain ⟨hx, hy, hz⟩ := gamutDesat_nonneg (cs.T.mulVec xyz)
  have hpos : 0 < (gamutDesat (cs.T.mulVec xyz)).max3 := max3_pos _ hx hy hz h
  have heq : cs.xyz_to_rgb xyz =
      (gamutDesat (cs.T.mulVec xyz)).divs (gamutDesat (cs.T.mulVec xyz)).max3 := by
    rw [ColourSystem.xyz_to_rgb, maxNormalize, if_neg h]
  refine ⟨?_, heq⟩
  rw [heq, Vec3.max3_divs _ _ (le_of_lt hpos), div_self (ne_of_gt hpos)]

/-- Witness for C2: the axis-primary system at input (2, 1, 1). -/
theorem claim_C2_witness :
    gamutDesat (unitSystem.T.mulVec ⟨2, 1, 1⟩) ≠ ⟨0, 0, 0⟩ ∧
    (unitSystem.xyz_to_rgb ⟨2, 1, 1⟩).max3 = 1 := by
  have hT : unitSystem.T.mulVec ⟨2, 1, 1⟩ = ⟨2, 1, 1⟩ := by
    simp only [unitSystem, ColourSystem.T, ColourSystem.MI, ColourSystem.wscale,
      ColourSystem.M, Mat3.fromCols, ColourSystem.red, ColourSystem.green,
      ColourSystem.blue, xyz_from_xy, Mat3.inv3, Mat3.det3, Mat3.rowScale,
      Mat3.mulVec, Vec3.dot, Vec3.divs, Vec3.mk.injEq]
    norm_num
  have hg : gamutDesat (⟨2, 1, 1⟩ : Vec3) = ⟨2, 1, 1⟩ := by
    rw [gamutDesat, if_neg]
    norm_num
  have h : gamutDesat (unitSystem.T.mulVec ⟨2, 1, 1⟩) ≠ ⟨0, 0, 0⟩ := by
    rw [hT, hg]
    simp [Vec3.mk.injEq]
  exact ⟨h, (claim_C2 unitSystem ⟨2, 1, 1⟩ h).1⟩

/-- Claim C3: for every XYZ input, no component of the fractional vector
returned by xyz_to_rgb is negative. -/
theorem claim_C3 (cs : ColourSystem) (xyz : Vec3) :
    0 ≤ (cs.xyz_to_rgb xyz).x ∧ 0 ≤ (cs.xyz_to_rgb xyz).y ∧ 0 ≤ (cs.xyz_to_rgb xyz).z := by
  obtain ⟨hx, hy, hz⟩ := gamutDesat_nonneg (cs.T.mulVec xyz)
  rw [ColourSystem.xyz_to_rgb, maxNormalize]
  split
  · exact ⟨hx, hy, hz⟩
  · have hs : 0 ≤ (gamutDesat (cs.T.mulVec xyz)).max3 := max3_nonneg _ hx
    exact ⟨div_nonneg hx hs, div_nonneg hy hs, div_nonneg hz hs⟩

/-- Claim C4: with a recognized 1964 variant and an 81-row table,
spec_to_xyz on the 81-length all-zero spectrum returns the all-zero XYZ
vector (no exception, no non-finite value), and on any 81-length
spectrum whose raw XYZ components have nonzero sum it returns the raw
vector divided by that sum, whose components add up to 1. -/
theorem claim_C4 (cs : ColourSystem) (g : Globals)
    (hv : cs.cmfVariant = 1964) (hlen : g.cmf1964.length = 81) :
    cs.spec_to_xyz g (List.replicate 81 0) = .ok ⟨0, 0, 0⟩ ∧
    ∀ (spec : List ℚ) (XYZ : Vec3), spec.length = 81 →
      rawXYZ spec g.cmf1964 = some XYZ → XYZ.csum ≠ 0 →
      cs.spec_to_xyz g spec = .ok (XYZ.divs XYZ.csum) ∧
      (XYZ.divs XYZ.csum).csum = 1 := by
  refine ⟨spec_to_xyz_zero_replicate cs g hv hlen, ?_⟩
  intro spec XYZ _hsl hraw hden
  constructor
  · rw [ColourSystem.spec_to_xyz]
    simp only [cmf_of_1964 cs g hv, hraw]
    rw [if_neg hden]
  · rw [Vec3.csum_divs, div_self hden]

/-- Witness for C4: the sRGB system over the 81-row test tables, on the
all-zero and the all-one spectra. -/
theorem claim_C4_witness :
    cs_srgb.cmfVariant = 1964 ∧ testGlobals.cmf1964.length = 81 ∧
    (List.replicate 81 (1 : ℚ)).length = 81 ∧
    rawXYZ (List.replicate 81 (1 : ℚ)) testGlobals.cmf1964 = some ⟨81, 162, 81⟩ ∧
    Vec3.csum ⟨81, 162, 81⟩ ≠ 0 ∧
    cs_srgb.spec_to_xyz testGlobals (List.replicate 81 0) = .ok ⟨0, 0, 0⟩ ∧
    cs_srgb.spec_to_xyz testGlobals (List.replicate 81 1) =
      .ok (Vec3.divs ⟨81, 162, 81⟩ (Vec3.csum ⟨81, 162, 81⟩)) ∧
    (Vec3.divs ⟨81, 162, 81⟩ (Vec3.csum ⟨81, 162, 81⟩)).csum = 1 := by
  have hv : cs_srgb.cmfVariant = 1964 := rfl
  have hlen : testGlobals.cmf1964.length = 81 := by simp [testGlobals]
  have hraw : rawXYZ (List.replicate 81 (1 : ℚ)) testGlobals.cmf1964 =
      some ⟨81, 162, 81⟩ := by
    have he : testGlobals.cmf1964 = List.replicate 81 ⟨1, 2, 1⟩ := rfl
    rw [he, rawXYZ, bcastRows, if_pos (by simp), Option.map_some',
      List.zipWith_replicate]
    norm_num [Vec3.smul, sumRows_replicate]
  have hden : Vec3.csum ⟨81, 162, 81⟩ ≠ 0 := by norm_num [Vec3.csum]
  obtain ⟨hzero, hgen⟩ := claim_C4 cs_srgb testGlobals hv hlen
  obtain ⟨ha, hb⟩ := hgen (List.replicate 81 1) ⟨81, 162, 81⟩ (by simp) hraw hden
  exact ⟨hv, hlen, by simp, hraw, hden, hzero, ha, hb⟩

/-- Claim C5 (code side): with a variant other than 1964 and 1931 the
two `if` statements both fail, `self.cmf` stays unset, construction
still returns normally, and a later spec_to_xyz call surfaces
AttributeError instead of a ConfigurationError at construction. -/
theorem claim_C5 (cs : ColourSystem) (g : Globals) (spec : List ℚ)
    (h64 : cs.cmfVariant ≠ 1964) (h31 : cs.cmfVariant ≠ 1931) :
    cs.cmf g = none ∧ cs.spec_to_xyz g spec = .error .attributeError := by
  have hc : cs.cmf g = none := by
    rw [ColourSystem.cmf]
    simp [h64, h31]
  refine ⟨hc, ?_⟩
  rw [ColourSystem.spec_to_xyz]
  simp only [hc]

/-- Witness for C5: a system built with variant 2000. -/
theorem claim_C5_witness :
    ((⟨(0.64, 0.33), (0.30, 0.60), (0.15, 0.06), illuminant_D65, 2000⟩ :
        ColourSystem).cmfVariant ≠ 1964) ∧
    ((⟨(0.64, 0.33), (0.30, 0.60), (0.15, 0.06), illuminant_D65, 2000⟩ :
        ColourSystem).cmfVariant ≠ 1931) ∧
    (⟨(0.64, 0.33), (0.30, 0.60), (0.15, 0.06), illuminant_D65, 2000⟩ :
        ColourSystem).cmf testGlobals = none :=
  ⟨by decide, by decide,
    (claim_C5 _ testGlobals [] (by decide) (by decide)).1⟩

/-- Counterexample for C6: a spectrum of length 1 is not of length 81,
yet spec_to_xyz does not fail — numpy broadcasts the single sample
across the 81 CMF rows and returns a normalized XYZ vector. -/
theorem claim_C6_counterexample :
    ([(5 : ℚ)].length ≠ 81) ∧
    cs_srgb.spec_to_xyz testGlobals [(5 : ℚ)] = .ok ⟨1/4, 1/2, 1/4⟩ := by
  refine ⟨by simp, ?_⟩
  have hraw : rawXYZ [(5 : ℚ)] testGlobals.cmf1964 = some ⟨405, 810, 405⟩ := by
    have he : testGlobals.cmf1964 = List.replicate 81 ⟨1, 2, 1⟩ := rfl
    rw [he, rawXYZ, bcastRows, if_neg (by simp), if_pos (by simp),
      Option.map_some', List.map_replicate]
    norm_num [Vec3.smul, sumRows_replicate]
  rw [ColourSystem.spec_to_xyz]
  simp only [cmf_of_1964 cs_srgb testGlobals rfl, hraw]
  rw [if_neg (by norm_num [Vec3.csum])]
  norm_num [Vec3.divs, Vec3.csum, Vec3.mk.injEq]

/-- Claim C6 (amended): for a system with the 1964 variant and an 81-row
table, spec_to_xyz fails with the broadcast ValueError on every spectrum
whose length is neither 81 nor 1; a length-1 spectrum broadcasts
silently instead. -/
theorem claim_C6 (cs : ColourSystem) (g : Globals) (spec : List ℚ)
    (hv : cs.cmfVariant = 1964) (hlen : g.cmf1964.length = 81)
    (h81 : spec.length ≠ 81) (h1 : spec.length ≠ 1) :
    cs.spec_to_xyz g spec = .error .valueError := by
  have hbc : rawXYZ spec g.cmf1964 = none := by
    rw [rawXYZ, bcastRows, if_neg (by rw [hlen]; exact h81), if_neg h1,
      if_neg (by rw [hlen]; norm_num)]
    rfl
  rw [ColourSystem.spec_to_xyz]
  simp only [cmf_of_1964 cs g hv, hbc]

/-- Witness for C6: a length-2 spectrum fails with the broadcast error. -/
theorem claim_C6_witness :
    cs_srgb.cmfVariant = 1964 ∧ testGlobals.cmf1964.length = 81 ∧
    ([(1 : ℚ), 2].length ≠ 81) ∧ ([(1 : ℚ), 2].length ≠ 1) ∧
    cs_srgb.spec_to_xyz testGlobals [1, 2] = .error .valueError :=
  ⟨rfl, by simp [testGlobals], by simp, by simp,
    claim_C6 cs_srgb testGlobals [1, 2] rfl (by simp [testGlobals])
      (by simp) (by simp)⟩

/-- Claim C7: xyz_to_spec ignores the instance's configured CMF variant
entirely; for every instance it equals the map over the fixed 1964
table's rows of the dot product with the input scaled by the
process-wide weight, the sum of the elementwise product of the 1964
CMF's Y-channel with the D65 spectrum. -/
theorem claim_C7 (cs1 cs2 : ColourSystem) (g : Globals) (xyz : Vec3) :
    cs1.xyz_to_spec g xyz = cs2.xyz_to_spec g xyz ∧
    cs1.xyz_to_spec g xyz =
      g.cmf1964.map (fun row =>
        Vec3.dot (Vec3.smul
          ((List.zipWith (fun a b => a * b) (g.cmf1964.map Vec3.y) g.D65).sum)
          xyz) row) := by
  refine ⟨rfl, ?_⟩
  rw [ColourSystem.xyz_to_spec]
  simp [Globals.weight, Vec3.hadamard_csum]

/-- Claim C8: rgb_to_hex multiplies each fractional component by 255 and
truncates (so 0.5 gives 7f, not 80), formatting lowercase zero-padded. -/
theorem claim_C8 :
    ColourSystem.rgb_to_hex ⟨1, 0, 0⟩ = "#ff0000" ∧
    ColourSystem.rgb_to_hex ⟨0, 0, 0⟩ = "#000000" ∧
    ColourSystem.rgb_to_hex ⟨0.5, 0.5, 0.5⟩ = "#7f7f7f" := by
  refine ⟨?_, rgb_to_hex_zero, ?_⟩
  · rw [ColourSystem.rgb_to_hex]
    rw [show truncQ (255 * (⟨1, 0, 0⟩ : Vec3).x) = 255 from by
      rw [truncQ_eq_intFloor _ (by norm_num)]; norm_num]
    rw [show truncQ (255 * (⟨1, 0, 0⟩ : Vec3).y) = 0 from by
      rw [truncQ_eq_intFloor _ (by norm_num)]; norm_num]
    decide
  · rw [ColourSystem.rgb_to_hex]
    rw [show truncQ (255 * (⟨0.5, 0.5, 0.5⟩ : Vec3).x) = 127 from by
      rw [truncQ_eq_intFloor _ (by norm_num)]; norm_num]
    decide

/-- Claim C9: sepc_to_xy computes XYZ via spec_to_xyz and divides the
first two components by X+Y+Z; on the all-zero 81-length spectrum that
denominator is zero and both returned components are the non-finite
result of a division by zero rather than a finite pair. -/
theorem claim_C9 (cs : ColourSystem) (g : Globals)
    (hv : cs.cmfVariant = 1964) (hlen : g.cmf1964.length = 81) :
    (∀ (spec : List ℚ) (XYZ : Vec3), cs.spec_to_xyz g spec = .ok XYZ →
      cs.sepc_to_xy g spec = .ok (qdivF XYZ.x XYZ.csum, qdivF XYZ.y XYZ.csum)) ∧
    cs.sepc_to_xy g (List.replicate 81 0) = .ok (none, none) := by
  constructor
  · intro spec XYZ h
    rw [ColourSystem.sepc_to_xy, h]
    rfl
  · rw [ColourSystem.sepc_to_xy, spec_to_xyz_zero_replicate cs g hv hlen]
    simp [Except.map, qdivF, Vec3.csum]

/-- Witness for C9: the sRGB system on the all-zero spectrum over the
81-row test tables. -/
theorem claim_C9_witness :
    cs_srgb.cmfVariant = 1964 ∧ testGlobals.cmf1964.length = 81 ∧
    cs_srgb.sepc_to_xy testGlobals (List.replicate 81 0) = .ok (none, none) :=
  ⟨rfl, by simp [testGlobals],
    (claim_C9 cs_srgb testGlobals rfl (by simp [testGlobals])).2⟩

/-- Claim C10: the all-zero XYZ input passes through xyz_to_rgb
untouched — no desaturation, no normalization, no error — and the html
format returns "#000000". -/
theorem claim_C10 (cs : ColourSystem) :
    cs.xyz_to_rgb ⟨0, 0, 0⟩ = ⟨0, 0, 0⟩ ∧
    cs.xyz_to_rgb_html ⟨0, 0, 0⟩ = "#000000" := by
  have h : cs.xyz_to_rgb ⟨0, 0, 0⟩ = ⟨0, 0, 0⟩ := by
    rw [ColourSystem.xyz_to_rgb, Mat3.mulVec_zero, gamutDesat_zero,
      maxNormalize, if_pos rfl]
  exact ⟨h, by rw [ColourSystem.xyz_to_rgb_html, h, rgb_to_hex_zero]⟩
